import Mathlib

/-!
Shallow embedding of the `fileio` scalar functions of sqlean
(`src/fileio/scalar.c`, POSIX build): `readfile`, `writefile`, `mkdir`,
`symlink` and `lsmode`, together with a model of the filesystem and of the
fallible external calls (`fopen`, `fread`, `fwrite`, `mkdir`, `chmod`,
`utimes`, `symlink`, `stat`, `sqlite3_malloc`) that the C code observes only
through return codes and `errno`.

The filesystem is a map from verbatim path strings to entries; no path
normalization and no symbolic-link resolution is modelled (the C code passes
path strings to the OS unchanged).  The process umask is modelled as 0.
Environment-dependent failures (allocation, permission to chmod/utimes,
short reads and writes, readability of a file) are inputs in an `Env`
record, so that every branch of the C code is reachable in the model.
-/

namespace Fileio

/-- POSIX-style error codes (`errno` values) used by the modelled syscalls.
`ENONE` stands for "no error recorded". -/
inductive Errno where
  | ENONE
  | ENOENT
  | EEXIST
  | EISDIR
  | ENOTDIR
  | EACCES
  deriving DecidableEq

/-- The kind of a filesystem entry: a regular file (with its byte content),
a directory, or a symbolic link (with its target path). -/
inductive EKind where
  | file (content : List Nat)
  | dir
  | link (target : String)
  deriving DecidableEq

/-- A filesystem entry: its kind, its permission bits (the low 12 bits of
`st_mode`) and its modification time. -/
structure Entry where
  kind : EKind
  perm : Nat
  mtime : Int
  deriving DecidableEq

/-- The filesystem: a map from path strings to entries.  Paths are matched
verbatim, mirroring the byte-for-byte strings the C code hands to the OS. -/
abbrev FS := String → Option Entry

/-- Environment oracle: process-wide configuration (the engine blob-size
limit) and the outcomes of the fallible external conditions the C code can
only observe through return codes. -/
structure Env where
  mxBlob : Int
  readable : String → Bool
  allocOk : Bool
  strdupOk : Bool
  chmodOk : Bool
  utimesOk : Bool
  shortRead : Option Nat
  fwriteShort : Option Nat

/-- An SQLite value as passed to the scalar functions. -/
inductive SqlValue where
  | null
  | int (i : Int)
  | text (s : String)
  | blob (b : List Nat)
  deriving DecidableEq

/-- The result stored in an `sqlite3_context`: NULL (the initial state), a
blob, an int64, an error code (`sqlite3_result_error_code`), an error
message (`sqlite3_result_error`), or out-of-memory
(`sqlite3_result_error_nomem`). -/
inductive SqlResult where
  | null
  | blob (b : List Nat)
  | int (i : Int)
  | errCode (c : Nat)
  | errMsg (s : String)
  | nomem
  deriving DecidableEq

def SQLITE_OK : Nat := 0
def SQLITE_ERROR : Nat := 1
def SQLITE_NOMEM : Nat := 7
def SQLITE_IOERR : Nat := 10
def SQLITE_TOOBIG : Nat := 18

/-- Point update of the filesystem map. -/
def fsUpdate (fs : FS) (p : String) (e : Entry) : FS :=
  fun q => if q = p then some e else fs q

/-- Index of the last slash of a path, if any. -/
def lastSlashIdx (cs : List Char) : Option Nat :=
  match cs.reverse.findIdx? (fun c => c = '/') with
  | none => none
  | some k => some (cs.length - 1 - k)

/-- Whether the directory that must contain path `p` is available: a path
without a slash lives in the current directory, a path whose only slash is
leading lives in the root; otherwise the prefix before the last slash must
be an existing directory entry. -/
def parentStatus (fs : FS) (p : String) : Except Errno Unit :=
  match lastSlashIdx p.data with
  | none => Except.ok ()
  | some 0 => Except.ok ()
  | some k =>
    match fs (String.mk (p.data.take k)) with
    | none => Except.error Errno.ENOENT
    | some e =>
      match e.kind with
      | EKind.dir => Except.ok ()
      | _ => Except.error Errno.ENOTDIR

/-- `fopen(p, "rb")`: succeeds exactly on an existing, readable regular
file, returning its content. -/
def fopenR (env : Env) (fs : FS) (p : String) : Option (List Nat) :=
  match fs p with
  | some e =>
    match e.kind with
    | EKind.file c => if env.readable p then some c else none
    | _ => none
  | none => none

/-- `fopen(p, "wb")`: truncates an existing regular file, or creates a new
one (default creation mode 0666, umask 0) when the containing directory
exists; fails with `ENOENT` when it does not. -/
def fopenW (fs : FS) (p : String) : Except Errno FS :=
  match fs p with
  | some e =>
    match e.kind with
    | EKind.file _ => Except.ok (fsUpdate fs p { e with kind := EKind.file [] })
    | EKind.dir => Except.error Errno.EISDIR
    | EKind.link _ => Except.error Errno.EACCES
  | none =>
    match parentStatus fs p with
    | Except.ok _ => Except.ok (fsUpdate fs p ⟨EKind.file [], 0o666, 0⟩)
    | Except.error e => Except.error e

/-- `mkdir(p, mode)`: fails with `EEXIST` on an existing entry, with the
parent's error when the containing directory is missing or not a directory;
otherwise creates a directory with the given mode (masked to the mode
bits). -/
def mkdirSys (fs : FS) (p : String) (mode : Nat) : Except Errno FS :=
  match fs p with
  | some _ => Except.error Errno.EEXIST
  | none =>
    match parentStatus fs p with
    | Except.ok _ => Except.ok (fsUpdate fs p ⟨EKind.dir, mode &&& 0o7777, 0⟩)
    | Except.error e => Except.error e

/-- `chmod(p, mode)`: fails with `ENOENT` on a missing entry and with
`EACCES` when the environment denies the change; otherwise sets the
permission bits (masked to the mode bits). -/
def chmodSys (env : Env) (fs : FS) (p : String) (mode : Nat) : Except Errno FS :=
  match fs p with
  | none => Except.error Errno.ENOENT
  | some e =>
    if env.chmodOk then Except.ok (fsUpdate fs p { e with perm := mode &&& 0o7777 })
    else Except.error Errno.EACCES

/-- `utimes(p, times)`: fails with `ENOENT` on a missing entry and with
`EACCES` when the environment denies it; otherwise sets the modification
time. -/
def utimesSys (env : Env) (fs : FS) (p : String) (t : Int) : Except Errno FS :=
  match fs p with
  | none => Except.error Errno.ENOENT
  | some e =>
    if env.utimesOk then Except.ok (fsUpdate fs p { e with mtime := t })
    else Except.error Errno.EACCES

/-- `symlink(target, linkpath)`: a NULL linkpath fails; an existing entry at
the linkpath fails with `EEXIST`; a missing containing directory fails with
its error; otherwise the link is created. -/
def symlinkSys (fs : FS) (target : String) (linkpath : Option String) : Except Errno FS :=
  match linkpath with
  | none => Except.error Errno.EACCES
  | some lp =>
    match fs lp with
    | some _ => Except.error Errno.EEXIST
    | none =>
      match parentStatus fs lp with
      | Except.ok _ => Except.ok (fsUpdate fs lp ⟨EKind.link target, 0o777, 0⟩)
      | Except.error e => Except.error e

/-- The number of bytes `fread` actually delivers for a request of `n`
bytes, as dictated by the environment. -/
def freadCount (env : Env) (n : Nat) : Nat :=
  match env.shortRead with
  | none => n
  | some k => min k n

/-- The number of bytes `fwrite` actually writes for a request of `n`
bytes, as dictated by the environment. -/
def fwriteCount (env : Env) (n : Nat) : Nat :=
  match env.fwriteShort with
  | none => n
  | some k => min k n

/-- `sqlite3_value_text`: NULL yields a null pointer; other values are
coerced to text (integers via their decimal form, blob bytes viewed as
characters). -/
def valueText : SqlValue → Option String
  | SqlValue.null => none
  | SqlValue.text s => some s
  | SqlValue.int i => some (toString i)
  | SqlValue.blob b => some (String.mk (b.map Char.ofNat))

/-- `sqlite3_value_blob`: NULL yields a null pointer; text and integer
values are viewed as their byte representations. -/
def valueBlob : SqlValue → Option (List Nat)
  | SqlValue.null => none
  | SqlValue.blob b => some b
  | SqlValue.text s => some (s.data.map Char.toNat)
  | SqlValue.int i => some ((toString i).data.map Char.toNat)

/-- `sqlite3_value_int`, approximated: non-integer values are modelled
as 0 (the claims never pass non-integer permission or time arguments). -/
def valueInt : SqlValue → Int
  | SqlValue.int i => i
  | _ => 0

/-- `sqlite3_value_int64`, approximated like `valueInt`. -/
def valueInt64 : SqlValue → Int
  | SqlValue.int i => i
  | _ => 0

/-- The C cast `(mode_t)x`: reinterpret a C int as an unsigned 32-bit
value. -/
def modeOfInt (i : Int) : Nat := (i % 4294967296).toNat

/-- The result of a read: the context result together with the size of the
buffer requested from `sqlite3_malloc64` (`none` when no allocation was
attempted). -/
structure RRes where
  res : SqlResult
  allocReq : Option Nat
  deriving DecidableEq

/-- Model of `readFileContents` (scalar.c): open for reading (a failure
leaves the result NULL), measure the length by end-seek, compare it with
the engine blob limit (`SQLITE_TOOBIG`), allocate `nIn ? nIn : 1` bytes
(`sqlite3_result_error_nomem` on failure), read, and return the blob only
when the full length was read (`SQLITE_IOERR` otherwise, freeing the
buffer). -/
def readFileContents (env : Env) (fs : FS) (zName : String) : RRes :=
  match fopenR env fs zName with
  | none => ⟨SqlResult.null, none⟩
  | some content =>
    let nIn : Int := content.length
    if nIn > env.mxBlob then ⟨SqlResult.errCode SQLITE_TOOBIG, none⟩
    else
      let nAlloc : Nat := if content.length = 0 then 1 else content.length
      if env.allocOk = false then ⟨SqlResult.nomem, some nAlloc⟩
      else
        let nRead := freadCount env content.length
        if nIn = (nRead : Int) then ⟨SqlResult.blob (content.take nRead), some nAlloc⟩
        else ⟨SqlResult.errCode SQLITE_IOERR, some nAlloc⟩

/-- Model of `sqlite3_readfile`: a NULL path returns with the result left
NULL; otherwise the file contents are read. -/
def sqlite3_readfile (env : Env) (fs : FS) (args : List SqlValue) : RRes :=
  match valueText (args.getD 0 SqlValue.null) with
  | none => ⟨SqlResult.null, none⟩
  | some z => readFileContents env fs z

/-- Model of `sqlite3_lsmode`: the `st_mode` argument is taken as the
non-negative bit pattern of the C int (for the bits this function masks,
arithmetic and logical shifts agree, so the unsigned reinterpretation is
exact).  Mirrors the C: a type character chosen by `S_ISLNK` / `S_ISREG` /
`S_ISDIR`, then for i = 0, 1, 2 the triad of `iMode >> ((2 - i) * 3)`
tested against 4, 2, 1. -/
def lsmode (iMode : Nat) : String :=
  let c0 : Char :=
    if iMode &&& 0xF000 = 0xA000 then 'l'
    else if iMode &&& 0xF000 = 0x8000 then '-'
    else if iMode &&& 0xF000 = 0x4000 then 'd'
    else '?'
  let triad : Nat → List Char := fun i =>
    let m := iMode >>> ((2 - i) * 3)
    [if m &&& 0x4 ≠ 0 then 'r' else '-',
     if m &&& 0x2 ≠ 0 then 'w' else '-',
     if m &&& 0x1 ≠ 0 then 'x' else '-']
  String.mk (c0 :: (triad 0 ++ triad 1 ++ triad 2))

/-- The scan of the `makeParentDirectory` loop: the least index `j ≥ i`
that is either the end of the string or a slash
(`for (; zCopy[i] != '/' && i < nCopy; i++)`). -/
def nextSlash (cs : List Char) (i : Nat) : Nat :=
  i + ((cs.drop i).takeWhile (fun c => c ≠ '/')).length

/-- The loop body of `makeParentDirectory` (scalar.c): starting at index
`i = 1`, scan to the next slash; at each slash, the prefix before it is
checked with `fileStat` and created with `mkdir(prefix, 0777)` when the
stat fails; an existing non-directory entry or a failing `mkdir` sets
`rc = SQLITE_ERROR` and stops the loop.  Each iteration advances `i` past
the slash just found, so `cs.length + 1` iterations always suffice; the
first argument is that iteration bound, which makes the recursion
structural (the zero-fuel case is unreachable from `makeParentDirectory`). -/
def mkParentGo (cs : List Char) : Nat → FS → Nat → Nat × FS
  | 0, fs, _ => (SQLITE_OK, fs)
  | fuel + 1, fs, i =>
    let j := nextSlash cs i
    if j < cs.length then
      let pre := String.mk (cs.take j)
      match fs pre with
      | some e =>
        match e.kind with
        | EKind.dir => mkParentGo cs fuel fs (j + 1)
        | _ => (SQLITE_ERROR, fs)
      | none =>
        match mkdirSys fs pre 0o777 with
        | Except.ok fs1 => mkParentGo cs fuel fs1 (j + 1)
        | Except.error _ => (SQLITE_ERROR, fs)
    else (SQLITE_OK, fs)

/-- Model of `makeParentDirectory`: copy the path (`SQLITE_NOMEM` when the
copy allocation fails) and run the slash-walking loop from index 1. -/
def makeParentDirectory (env : Env) (fs : FS) (zFile : String) : Nat × FS :=
  if env.strdupOk then mkParentGo zFile.data (zFile.data.length + 1) fs 1
  else (SQLITE_NOMEM, fs)

/-- Model of `makeDirectory`: `mkdir(path, mode)`; on failure, the call is
still a success when the failure was `EEXIST`, the existing entry stats as
a directory, and its permission bits already match `mode & 0777` or can be
changed to match with `chmod(path, mode & 0777)`. -/
def makeDirectory (env : Env) (fs : FS) (path : String) (mode : Nat) : Nat × FS :=
  match mkdirSys fs path mode with
  | Except.ok fs1 => (0, fs1)
  | Except.error e =>
    if e = Errno.EEXIST then
      match fs path with
      | none => (1, fs)
      | some ent =>
        match ent.kind with
        | EKind.dir =>
          if ent.perm &&& 0o777 = mode &&& 0o777 then (0, fs)
          else
            match chmodSys env fs path (mode &&& 0o777) with
            | Except.ok fs1 => (0, fs1)
            | Except.error _ => (1, fs)
        | _ => (1, fs)
    else (1, fs)

/-- Model of `createSymlink` (POSIX branch), mirroring the C exactly:
`int res = symlink(src, dst) < 0;` makes `res` either 0 or 1, and the
subsequent test `if (res < 0) return 1;` can therefore never fire, so the
function returns 0 whether or not the `symlink` call failed. -/
def createSymlink (fs : FS) (src : String) (dst : Option String) : Nat × FS :=
  let call : Int × FS :=
    match symlinkSys fs src dst with
    | Except.ok fs1 => (0, fs1)
    | Except.error _ => (-1, fs)
  let res : Int := if call.1 < 0 then 1 else 0
  if res < 0 then (1, call.2) else (0, call.2)

/-- The outcome of one `writeFile` call: its return value (0 success,
1 open or set-time failure, 2 write or chmod failure), the filesystem, the
int64 result stored by `sqlite3_result_int64` (if reached), and the value
of `errno` recorded by the last failing call (`ENONE` when no failure was
recorded). -/
structure WRes where
  ret : Nat
  fs : FS
  resSet : Option Int
  errno : Errno

/-- Write `c` through an open handle on `p` (the handle exists, so the
entry is present; a missing entry leaves the filesystem unchanged). -/
def fsSetContent (fs : FS) (p : String) (c : List Nat) : FS :=
  match fs p with
  | some e => fsUpdate fs p { e with kind := EKind.file c }
  | none => fs

/-- Model of `writeFile` (scalar.c): open `"wb"` (returning 1 on failure,
with `errno` preserved), write the blob bytes when the value is not NULL
(a short write marks `rc = 1`; `nWrite` stays the full byte count), close,
apply `chmod(zFile, mode)` when `rc == 0` and `mode` is nonzero (a failure
marks `rc = 1`), return 2 when `rc` is set; otherwise store the int64
result `nWrite` and, when `mtime >= 0`, set the times with `utimes`
(returning 1 on failure). -/
def writeFile (env : Env) (fs : FS) (zFile : String) (pData : SqlValue) (mode : Nat)
    (mtime : Int) : WRes :=
  match fopenW fs zFile with
  | Except.error e => ⟨1, fs, none, e⟩
  | Except.ok fs1 =>
    let step : Int × Nat × FS :=
      match valueBlob pData with
      | none => (0, 0, fs1)
      | some z =>
        let n := fwriteCount env z.length
        ((z.length : Int), if z.length = n then 0 else 1, fsSetContent fs1 zFile (z.take n))
    let nWrite : Int := step.1
    let chm : Nat × FS :=
      if step.2.1 = 0 ∧ mode ≠ 0 then
        match chmodSys env step.2.2 zFile mode with
        | Except.ok f => (0, f)
        | Except.error _ => (1, step.2.2)
      else (step.2.1, step.2.2)
    if chm.1 ≠ 0 then ⟨2, chm.2, none, Errno.ENONE⟩
    else
      if 0 ≤ mtime then
        match utimesSys env chm.2 zFile mtime with
        | Except.ok f => ⟨0, f, some nWrite, Errno.ENONE⟩
        | Except.error e => ⟨1, chm.2, some nWrite, e⟩
      else ⟨0, chm.2, some nWrite, Errno.ENONE⟩

/-- The retry logic of `sqlite3_writefile` (lines 392-397 of scalar.c),
instrumented with the number of `writeFile` attempts and of
`makeParentDirectory` invocations: the builder runs exactly when the first
attempt returned 1 with `errno == ENOENT`, and on its success the write is
attempted once more. -/
structure CoreOut where
  w : WRes
  attempts : Nat
  mkp : Nat

/-- See `CoreOut`. -/
def writefileCore (env : Env) (fs : FS) (zFile : String) (data : SqlValue) (perm : Nat)
    (mtime : Int) : CoreOut :=
  let w1 := writeFile env fs zFile data perm mtime
  if w1.ret = 1 ∧ w1.errno = Errno.ENOENT then
    let mp := makeParentDirectory env w1.fs zFile
    if mp.1 = SQLITE_OK then
      ⟨writeFile env mp.2 zFile data perm mtime, 2, 1⟩
    else ⟨⟨w1.ret, mp.2, w1.resSet, w1.errno⟩, 1, 1⟩
  else ⟨w1, 1, 0⟩

/-- The final state of a `writefile` / `mkdir` / `symlink` call: the
context result and the filesystem, plus the instrumentation counters of
`writefileCore` (0 when `writeFile` was never reached). -/
structure CtxOut where
  res : SqlResult
  fs : FS
  attempts : Nat
  mkp : Nat

/-- The permission argument of `writefile`: `(mode_t)sqlite3_value_int(argv[2])`
when at least three arguments were given, 0666 otherwise. -/
def permOfArgs (args : List SqlValue) : Nat :=
  if 3 ≤ args.length then modeOfInt (valueInt (args.getD 2 SqlValue.null)) else 0o666

/-- The mtime argument of `writefile`: `sqlite3_value_int64(argv[3])` when
four arguments were given, -1 otherwise. -/
def mtimeOfArgs (args : List SqlValue) : Int :=
  if args.length = 4 then valueInt64 (args.getD 3 SqlValue.null) else -1

/-- Model of `sqlite3_writefile`: argument-count check, NULL-path check,
then `writeFile` with the single parent-directory retry; an error message
naming the path is raised only when more than two arguments were given and
the final attempt failed. -/
def sqlite3_writefile (env : Env) (fs : FS) (args : List SqlValue) : CtxOut :=
  if args.length < 2 ∨ 4 < args.length then
    ⟨SqlResult.errMsg "wrong number of arguments to function writefile()", fs, 0, 0⟩
  else
    match valueText (args.getD 0 SqlValue.null) with
    | none => ⟨SqlResult.null, fs, 0, 0⟩
    | some zFile =>
      let core := writefileCore env fs zFile (args.getD 1 SqlValue.null)
        (permOfArgs args) (mtimeOfArgs args)
      if 2 < args.length ∧ core.w.ret ≠ 0 then
        ⟨SqlResult.errMsg ("failed to write file: " ++ zFile), core.w.fs,
          core.attempts, core.mkp⟩
      else
        ⟨match core.w.resSet with
          | some k => SqlResult.int k
          | none => SqlResult.null,
         core.w.fs, core.attempts, core.mkp⟩

/-- Model of `sqlite3_symlink`: argument-count check, NULL-target check
(the linkpath is not NULL-checked in the C and is passed through), then
`createSymlink`, raising an error message naming the target when it
reports failure. -/
def sqlite3_symlink (_env : Env) (fs : FS) (args : List SqlValue) : SqlResult × FS :=
  if args.length ≠ 2 then
    (SqlResult.errMsg "wrong number of arguments to function symlink()", fs)
  else
    match valueText (args.getD 0 SqlValue.null) with
    | none => (SqlResult.null, fs)
    | some src =>
      let out := createSymlink fs src (valueText (args.getD 1 SqlValue.null))
      if out.1 ≠ 0 then
        (SqlResult.errMsg ("failed to create symlink to: " ++ src), out.2)
      else (SqlResult.null, out.2)

/-- Model of `sqlite3_mkdir`: argument-count check, NULL-path check,
default permission 0777, then `makeDirectory`, raising an error message
naming the path on failure. -/
def sqlite3_mkdir (env : Env) (fs : FS) (args : List SqlValue) : SqlResult × FS :=
  if args.length ≠ 1 ∧ args.length ≠ 2 then
    (SqlResult.errMsg "wrong number of arguments to function mkdir()", fs)
  else
    match valueText (args.getD 0 SqlValue.null) with
    | none => (SqlResult.null, fs)
    | some path =>
      let perm : Nat :=
        if args.length = 2 then modeOfInt (valueInt (args.getD 1 SqlValue.null)) else 0o777
      let out := makeDirectory env fs path perm
      if out.1 ≠ 0 then
        (SqlResult.errMsg ("failed to create directory: " ++ path), out.2)
      else (SqlResult.null, out.2)

/-- A benign environment: generous blob limit, everything readable, all
allocations and permission changes succeed, reads and writes complete in
full. -/
def env0 : Env := ⟨1000000000, fun _ => true, true, true, true, true, none, none⟩

/-- The empty filesystem. -/
def fs0 : FS := fun _ => none

/-- A filesystem holding a single directory at path `"d"`. -/
def fsD : FS := fun q => if q = "d" then some ⟨EKind.dir, 0o777, 0⟩ else none

/-- A filesystem holding a single regular file at path `"f"`. -/
def fsF : FS := fun q => if q = "f" then some ⟨EKind.file [1, 2], 0o644, 0⟩ else none

def S_IFMT : Nat := 0xF000

def S_IFREG : Nat := 0x8000

def S_IFDIR : Nat := 0x4000

def S_IFLNK : Nat := 0xA000

/-- Specification-side description of one permission character: the given
letter when the numbered mode bit is set, `-` otherwise. -/
def permBitChar (m : Nat) (bit : Nat) (c : Char) : Char :=
  if m.testBit bit then c else '-'

/-- Specification-side description of positions 1-9 of the `ls -l` string:
owner, group, other triads in order, each emitting r, w, x for its read
(bit 8/5/2), write (bit 7/4/1) and execute (bit 6/3/0) bit. -/
def specPermChars (m : Nat) : List Char :=
  [permBitChar m 8 'r', permBitChar m 7 'w', permBitChar m 6 'x',
   permBitChar m 5 'r', permBitChar m 4 'w', permBitChar m 3 'x',
   permBitChar m 2 'r', permBitChar m 1 'w', permBitChar m 0 'x']

/-- Specification-side description of position 0 of the `ls -l` string,
chosen by the file-type bits of the mode. -/
def specTypeChar (m : Nat) : Char :=
  if m &&& S_IFMT = S_IFLNK then 'l'
  else if m &&& S_IFMT = S_IFREG then '-'
  else if m &&& S_IFMT = S_IFDIR then 'd'
  else '?'

/-- The int64 `nWrite` that `writeFile` reports for a data value: the full
byte count of the blob, or 0 for an SQL NULL. -/
def blobLen (v : SqlValue) : Int :=
  match valueBlob v with
  | none => 0
  | some z => (z.length : Int)

/-- Whether an Except-valued syscall failed. -/
def sysFailed (r : Except Errno FS) : Bool :=
  match r with
  | Except.ok _ => false
  | Except.error _ => true

theorem shift_and_pow_ne (m s k : Nat) :
    ((m >>> s) &&& 2 ^ k ≠ 0) ↔ m.testBit (s + k) = true := by
  rw [Nat.and_two_pow, ← Nat.testBit_shiftRight]
  cases h : (m >>> s).testBit k <;> simp [h]

theorem shift_mask4 (m s : Nat) : ((m >>> s) &&& 4 ≠ 0) ↔ m.testBit (s + 2) = true := by
  have h : (4 : Nat) = 2 ^ 2 := rfl
  rw [h]; exact shift_and_pow_ne m s 2

theorem shift_mask2 (m s : Nat) : ((m >>> s) &&& 2 ≠ 0) ↔ m.testBit (s + 1) = true := by
  have h : (2 : Nat) = 2 ^ 1 := rfl
  rw [h]; exact shift_and_pow_ne m s 1

theorem shift_mask1 (m s : Nat) : ((m >>> s) &&& 1 ≠ 0) ↔ m.testBit (s + 0) = true := by
  have h : (1 : Nat) = 2 ^ 0 := rfl
  rw [h]; exact shift_and_pow_ne m s 0

theorem maskChar4 (m s : Nat) (c : Char) :
    (if (m >>> s) &&& 4 ≠ 0 then c else '-') = permBitChar m (s + 2) c := by
  unfold permBitChar
  by_cases h : m.testBit (s + 2) = true
  · rw [if_pos ((shift_mask4 m s).mpr h), if_pos h]
  · rw [if_neg (fun hc => h ((shift_mask4 m s).mp hc)), if_neg h]

theorem maskChar2 (m s : Nat) (c : Char) :
    (if (m >>> s) &&& 2 ≠ 0 then c else '-') = permBitChar m (s + 1) c := by
  unfold permBitChar
  by_cases h : m.testBit (s + 1) = true
  · rw [if_pos ((shift_mask2 m s).mpr h), if_pos h]
  · rw [if_neg (fun hc => h ((shift_mask2 m s).mp hc)), if_neg h]

theorem maskChar1 (m s : Nat) (c : Char) :
    (if (m >>> s) &&& 1 ≠ 0 then c else '-') = permBitChar m (s + 0) c := by
  unfold permBitChar
  by_cases h : m.testBit (s + 0) = true
  · rw [if_pos ((shift_mask1 m s).mpr h), if_pos h]
  · rw [if_neg (fun hc => h ((shift_mask1 m s).mp hc)), if_neg h]

/-- C4: for every mode, `lsmode` is pure and total, returning a 10-character
string whose position 0 is `l` for a symlink, `-` for a regular file, `d`
for a directory and `?` otherwise, and whose positions 1-9 emit r/w/x or
`-` for the owner, group and other permission triads in that order
according to the corresponding mode bits; in particular a regular-file mode
with all nine permission bits yields `"-rwxrwxrwx"` and a directory mode
with none yields `"d---------"`. -/
theorem lsmode_spec (m : Nat) :
    (lsmode m).length = 10 ∧
    (lsmode m).data = specTypeChar m :: specPermChars m ∧
    lsmode 0o100777 = "-rwxrwxrwx" ∧
    lsmode 0o040000 = "d---------" := by
  have h0 : (lsmode m).data =
      (if m &&& 0xF000 = 0xA000 then 'l'
       else if m &&& 0xF000 = 0x8000 then '-'
       else if m &&& 0xF000 = 0x4000 then 'd' else '?') ::
      [if (m >>> 6) &&& 4 ≠ 0 then 'r' else '-',
       if (m >>> 6) &&& 2 ≠ 0 then 'w' else '-',
       if (m >>> 6) &&& 1 ≠ 0 then 'x' else '-',
       if (m >>> 3) &&& 4 ≠ 0 then 'r' else '-',
       if (m >>> 3) &&& 2 ≠ 0 then 'w' else '-',
       if (m >>> 3) &&& 1 ≠ 0 then 'x' else '-',
       if (m >>> 0) &&& 4 ≠ 0 then 'r' else '-',
       if (m >>> 0) &&& 2 ≠ 0 then 'w' else '-',
       if (m >>> 0) &&& 1 ≠ 0 then 'x' else '-'] := rfl
  refine ⟨?_, ?_, by decide, by decide⟩
  · have : (lsmode m).length = (lsmode m).data.length := rfl
    rw [this, h0]
    rfl
  · rw [h0, maskChar4 m 6 'r', maskChar2 m 6 'w', maskChar1 m 6 'x',
      maskChar4 m 3 'r', maskChar2 m 3 'w', maskChar1 m 3 'x',
      maskChar4 m 0 'r', maskChar2 m 0 'w', maskChar1 m 0 'x']
    unfold specTypeChar specPermChars S_IFMT S_IFREG S_IFDIR S_IFLNK
    norm_num

/-- C2: a path that cannot be opened for reading (nonexistent or
unreadable) makes `readFileContents` leave the result NULL, raising no
error; the `readfile` wrapper behaves the same on such a path. -/
theorem readfile_unopenable_silent_null (env : Env) (fs : FS) (p : String)
    (h : fopenR env fs p = none) :
    readFileContents env fs p = ⟨SqlResult.null, none⟩ ∧
    sqlite3_readfile env fs [SqlValue.text p] = ⟨SqlResult.null, none⟩ := by
  constructor
  · simp [readFileContents, h]
  · simp [sqlite3_readfile, valueText, readFileContents, h]

/-- Witness for C2 at the empty filesystem and the path `"nope"`. -/
theorem readfile_unopenable_silent_null_witness :
    readFileContents env0 fs0 "nope" = ⟨SqlResult.null, none⟩ ∧
    sqlite3_readfile env0 fs0 [SqlValue.text "nope"] = ⟨SqlResult.null, none⟩ :=
  readfile_unopenable_silent_null env0 fs0 "nope" (by decide)

/-- C8 (code bug): at a linkpath that already exists the `symlink` syscall
fails, yet `createSymlink` returns 0 and the `symlink` SQL function
reports success (NULL) instead of an error, because
`int res = symlink(src, dst) < 0` is 0 or 1 and the test `res < 0` never
fires. -/
theorem createSymlink_swallows_failure :
    sysFailed (symlinkSys fsD "t" (some "d")) = true ∧
    (createSymlink fsD "t" (some "d")).1 = 0 ∧
    (sqlite3_symlink env0 fsD [SqlValue.text "t", SqlValue.text "d"]).1 = SqlResult.null := by
  refine ⟨by decide, by decide, by decide⟩

/-- C10 counterexample: a `mkdir` call whose first argument is SQL NULL but
whose argument count is wrong raises an error rather than returning NULL
silently. -/
theorem mkdir_null_path_bad_argc_raises :
    (sqlite3_mkdir env0 fs0 [SqlValue.null, SqlValue.int 0, SqlValue.int 0]).1
      = SqlResult.errMsg "wrong number of arguments to function mkdir()" := by decide

/-- C10 (amended): provided the argument count is within the accepted range
of the operation, a NULL first argument makes `readfile`, `writefile`,
`mkdir` and `symlink` return NULL silently: no error is raised and the
filesystem is left untouched. -/
theorem null_first_arg_silent (env : Env) (fs : FS) (args : List SqlValue)
    (h : valueText (args.getD 0 SqlValue.null) = none) :
    sqlite3_readfile env fs args = ⟨SqlResult.null, none⟩ ∧
    (2 ≤ args.length → args.length ≤ 4 →
      sqlite3_writefile env fs args = ⟨SqlResult.null, fs, 0, 0⟩) ∧
    ((args.length = 1 ∨ args.length = 2) →
      sqlite3_mkdir env fs args = (SqlResult.null, fs)) ∧
    (args.length = 2 → sqlite3_symlink env fs args = (SqlResult.null, fs)) := by
  refine ⟨?_, ?_, ?_, ?_⟩
  · simp only [sqlite3_readfile, h]
  · intro h2 h4
    have hlen : ¬ (args.length < 2 ∨ 4 < args.length) := by omega
    simp only [sqlite3_writefile, if_neg hlen, h]
  · intro h12
    have hlen : ¬ (args.length ≠ 1 ∧ args.length ≠ 2) := by
      rcases h12 with h1 | h1 <;> simp [h1]
    simp only [sqlite3_mkdir, if_neg hlen, h]
  · intro h2
    have hlen : ¬ (args.length ≠ 2) := by omega
    simp only [sqlite3_symlink, if_neg hlen, h]

/-- Witness for C10 (amended) at two NULL arguments. -/
theorem null_first_arg_silent_witness :
    sqlite3_writefile env0 fs0 [SqlValue.null, SqlValue.null] = ⟨SqlResult.null, fs0, 0, 0⟩ ∧
    sqlite3_mkdir env0 fs0 [SqlValue.null, SqlValue.null] = (SqlResult.null, fs0) ∧
    sqlite3_symlink env0 fs0 [SqlValue.null, SqlValue.null] = (SqlResult.null, fs0) :=
  ⟨(null_first_arg_silent env0 fs0 [SqlValue.null, SqlValue.null] rfl).2.1
      (by decide) (by decide),
   (null_first_arg_silent env0 fs0 [SqlValue.null, SqlValue.null] rfl).2.2.1 (Or.inr rfl),
   (null_first_arg_silent env0 fs0 [SqlValue.null, SqlValue.null] rfl).2.2.2 rfl⟩

theorem and_mask_chain (m : Nat) : (m &&& 0o7777) &&& 0o777 = m &&& 0o777 := by
  have h : (0o7777 &&& 0o777 : Nat) = 0o777 := by decide
  rw [Nat.land_assoc, h]

theorem and_mask_chain' (m : Nat) : (m &&& 0o777) &&& 0o7777 = m &&& 0o777 := by
  have h : (0o777 &&& 0o7777 : Nat) = 0o777 := by decide
  rw [Nat.land_assoc, h]

theorem and_mask_idem (m : Nat) : (m &&& 0o777) &&& 0o777 = m &&& 0o777 := by
  have h : (0o777 &&& 0o777 : Nat) = 0o777 := by decide
  rw [Nat.land_assoc, h]

theorem parentStatus_error_ne (fs : FS) (p : String) (e : Errno)
    (h : parentStatus fs p = Except.error e) : e ≠ Errno.EEXIST := by
  intro hcon
  subst hcon
  unfold parentStatus at h
  split at h
  · cases h
  · cases h
  · split at h
    · cases h
    · split at h
      · cases h
      · cases h

/-- C5: when the path already exists, `makeDirectory` succeeds exactly when
the existing entry is a directory whose permission bits already equal the
requested bits masked to 0777 or can be changed to them by `chmod`;
consequently a second call with the same path and mode after a successful
one succeeds, while a call on a path that exists as a regular file
fails. -/
theorem makeDirectory_exists_tolerance (env : Env) (fs : FS) (p : String) (mode : Nat) :
    (∀ ent, fs p = some ent →
      ((makeDirectory env fs p mode).1 = 0 ↔
        ent.kind = EKind.dir ∧
          (ent.perm &&& 0o777 = mode &&& 0o777 ∨ env.chmodOk = true))) ∧
    (∀ fs1, makeDirectory env fs p mode = (0, fs1) →
      (makeDirectory env fs1 p mode).1 = 0) ∧
    (∀ c pm mt, fs p = some ⟨EKind.file c, pm, mt⟩ →
      (makeDirectory env fs p mode).1 = 1) := by
  refine ⟨?_, ?_, ?_⟩
  · intro ent h
    rcases ent with ⟨k, pm, mt⟩
    cases k with
    | dir =>
      by_cases hp : pm &&& 0o777 = mode &&& 0o777
      · simp [makeDirectory, mkdirSys, h, hp]
      · by_cases hc : env.chmodOk
        · simp [makeDirectory, mkdirSys, chmodSys, h, hp, hc]
        · simp [makeDirectory, mkdirSys, chmodSys, h, hp, hc]
    | file c => simp [makeDirectory, mkdirSys, h]
    | link t => simp [makeDirectory, mkdirSys, h]
  · intro fs1 h
    cases hfp : fs p with
    | none =>
      cases hps : parentStatus fs p with
      | ok u =>
        simp only [makeDirectory, mkdirSys, hfp, hps, Prod.mk.injEq] at h
        rw [← h.2]
        simp [makeDirectory, mkdirSys, fsUpdate, and_mask_chain]
      | error e =>
        have he : e ≠ Errno.EEXIST := parentStatus_error_ne fs p e hps
        simp [makeDirectory, mkdirSys, hfp, hps, he] at h
    | some ent =>
      rcases ent with ⟨k, pm, mt⟩
      cases k with
      | dir =>
        by_cases hp : pm &&& 0o777 = mode &&& 0o777
        · have hfs : fs = fs1 := by
            simp [makeDirectory, mkdirSys, hfp, hp] at h
            exact h
          rw [← hfs]
          simp [makeDirectory, mkdirSys, hfp, hp]
        · by_cases hc : env.chmodOk
          · have hfs : fsUpdate fs p ⟨EKind.dir, (mode &&& 0o777) &&& 0o7777, mt⟩ = fs1 := by
              simp [makeDirectory, mkdirSys, chmodSys, hfp, hp, hc] at h
              exact h
            rw [← hfs]
            simp [makeDirectory, mkdirSys, fsUpdate, and_mask_chain', and_mask_idem]
          · simp [makeDirectory, mkdirSys, chmodSys, hfp, hc, hp] at h
      | file c => simp [makeDirectory, mkdirSys, hfp] at h
      | link t => simp [makeDirectory, mkdirSys, hfp] at h
  · intro c pm mt h
    simp [makeDirectory, mkdirSys, h]

/-- Witness for C5: an existing directory with matching bits is tolerated,
`mkdir` twice with the same path and mode succeeds both times, and `mkdir`
on an existing regular file fails. -/
theorem makeDirectory_exists_tolerance_witness :
    (makeDirectory env0 fsD "d" 0o777).1 = 0 ∧
    (makeDirectory env0 ((makeDirectory env0 fs0 "d" 0o750).2) "d" 0o750).1 = 0 ∧
    (makeDirectory env0 fsF "f" 0o777).1 = 1 :=
  ⟨((makeDirectory_exists_tolerance env0 fsD "d" 0o777).1 ⟨EKind.dir, 0o777, 0⟩
      (by decide)).mpr ⟨rfl, Or.inl (by decide)⟩,
   (makeDirectory_exists_tolerance env0 fs0 "d" 0o750).2.1
      ((makeDirectory env0 fs0 "d" 0o750).2) rfl,
   (makeDirectory_exists_tolerance env0 fsF "f" 0o777).2.2 [1, 2] 0o644 0 (by decide)⟩

/-- C6: for a file that opens for reading with content `c`, a length above
the engine limit fails with `SQLITE_TOOBIG` before any allocation and no
content is returned; otherwise exactly `max 1 (length c)` bytes are
requested from the allocator, an allocation failure is an explicit
out-of-memory error, and a read that delivers fewer bytes than expected
fails with `SQLITE_IOERR` instead of returning partial data. -/
theorem readFileContents_error_paths (env : Env) (fs : FS) (p : String) (c : List Nat)
    (h : fopenR env fs p = some c) :
    ((c.length : Int) > env.mxBlob →
      readFileContents env fs p = ⟨SqlResult.errCode SQLITE_TOOBIG, none⟩) ∧
    (¬ ((c.length : Int) > env.mxBlob) →
      (readFileContents env fs p).allocReq = some (if c.length = 0 then 1 else c.length)) ∧
    (¬ ((c.length : Int) > env.mxBlob) → env.allocOk = false →
      readFileContents env fs p
        = ⟨SqlResult.nomem, some (if c.length = 0 then 1 else c.length)⟩) ∧
    (¬ ((c.length : Int) > env.mxBlob) → env.allocOk = true →
      freadCount env c.length ≠ c.length →
      readFileContents env fs p
        = ⟨SqlResult.errCode SQLITE_IOERR, some (if c.length = 0 then 1 else c.length)⟩) := by
  refine ⟨?_, ?_, ?_, ?_⟩
  · intro hbig
    simp [readFileContents, h, hbig]
  · intro hok
    simp only [readFileContents, h]
    rw [if_neg hok]
    by_cases ha : env.allocOk = false
    · rw [if_pos ha]
    · rw [if_neg ha]
      by_cases hr : (c.length : Int) = (freadCount env c.length : Int)
      · rw [if_pos hr]
      · rw [if_neg hr]
  · intro hok ha
    simp only [readFileContents, h]
    rw [if_neg hok, if_pos ha]
  · intro hok ha hr
    have hr' : ¬ ((c.length : Int) = (freadCount env c.length : Int)) := by
      intro hc
      exact hr (by exact_mod_cast hc.symm)
    have ha' : ¬ (env.allocOk = false) := by simp [ha]
    simp only [readFileContents, h]
    rw [if_neg hok, if_neg ha', if_neg hr']

/-- Witness for C6 on the two-byte file `"f"`: blob limit 1 gives TOOBIG,
a failing allocator gives the out-of-memory error, and a read delivering
one byte of two gives IOERR. -/
theorem readFileContents_error_paths_witness :
    readFileContents { env0 with mxBlob := 1 } fsF "f"
      = ⟨SqlResult.errCode SQLITE_TOOBIG, none⟩ ∧
    readFileContents { env0 with allocOk := false } fsF "f"
      = ⟨SqlResult.nomem, some 2⟩ ∧
    readFileContents { env0 with shortRead := some 1 } fsF "f"
      = ⟨SqlResult.errCode SQLITE_IOERR, some 2⟩ :=
  ⟨(readFileContents_error_paths { env0 with mxBlob := 1 } fsF "f" [1, 2]
      (by decide)).1 (by decide),
   (readFileContents_error_paths { env0 with allocOk := false } fsF "f" [1, 2]
      (by decide)).2.2.1 (by decide) (by decide),
   (readFileContents_error_paths { env0 with shortRead := some 1 } fsF "f" [1, 2]
      (by decide)).2.2.2 (by decide) (by decide) (by decide)⟩

theorem fopenW_ok_entry (fs : FS) (p : String) (fs1 : FS)
    (h : fopenW fs p = Except.ok fs1) :
    ∃ pm mt, fs1 p = some ⟨EKind.file [], pm, mt⟩ := by
  cases hfp : fs p with
  | some e =>
    rcases e with ⟨k, pm, mt⟩
    cases k with
    | file c =>
      refine ⟨pm, mt, ?_⟩
      simp only [fopenW, hfp] at h
      injection h with h'
      rw [← h']
      simp [fsUpdate]
    | dir => simp [fopenW, hfp] at h
    | link t => simp [fopenW, hfp] at h
  | none =>
    cases hps : parentStatus fs p with
    | ok u =>
      refine ⟨0o666, 0, ?_⟩
      simp only [fopenW, hfp, hps] at h
      injection h with h'
      rw [← h']
      simp [fsUpdate]
    | error e => simp [fopenW, hfp, hps] at h

theorem chmodSys_ok_at (env : Env) (fs : FS) (p : String) (m : Nat) (f : FS) (e : Entry)
    (hfs : fs p = some e) (h : chmodSys env fs p m = Except.ok f) :
    f p = some ⟨e.kind, m &&& 0o7777, e.mtime⟩ := by
  simp only [chmodSys, hfs] at h
  by_cases hc : env.chmodOk = true
  · rw [if_pos hc] at h
    injection h with h'
    rw [← h']
    simp [fsUpdate]
  · rw [if_neg hc] at h
    cases h

theorem utimesSys_ok_at (env : Env) (fs : FS) (p : String) (t : Int) (f : FS) (e : Entry)
    (hfs : fs p = some e) (h : utimesSys env fs p t = Except.ok f) :
    f p = some ⟨e.kind, e.perm, t⟩ := by
  simp only [utimesSys, hfs] at h
  by_cases hc : env.utimesOk = true
  · rw [if_pos hc] at h
    injection h with h'
    rw [← h']
    simp [fsUpdate]
  · rw [if_neg hc] at h
    cases h

theorem writeFile_ok_content (env : Env) (fs : FS) (p : String) (B : List Nat) (mode : Nat)
    (mtime : Int) (h : (writeFile env fs p (SqlValue.blob B) mode mtime).ret = 0) :
    ∃ pm mt, (writeFile env fs p (SqlValue.blob B) mode mtime).fs p
      = some ⟨EKind.file B, pm, mt⟩ := by
  cases hopen : fopenW fs p with
  | error e => simp [writeFile, hopen] at h
  | ok fs1 =>
    obtain ⟨pm, mt, hfs1⟩ := fopenW_ok_entry fs p fs1 hopen
    by_cases hn : B.length = fwriteCount env B.length
    case neg =>
      have hncond : (B.length = fwriteCount env B.length) = False := eq_false hn
      simp [writeFile, hopen, valueBlob, hncond] at h
    case pos =>
      have hcond : (B.length = fwriteCount env B.length) = True := eq_true hn
      have htake : B.take (fwriteCount env B.length) = B := by
        rw [← hn, List.take_length]
      have hfs2 : fsSetContent fs1 p B p = some ⟨EKind.file B, pm, mt⟩ := by
        simp [fsSetContent, hfs1, fsUpdate]
      by_cases hm : mode = 0
      · by_cases hmt : 0 ≤ mtime
        · cases hut : utimesSys env (fsSetContent fs1 p B) p mtime with
          | error e => simp [writeFile, hopen, valueBlob, hcond, htake, hm, hmt, hut] at h
          | ok f =>
            refine ⟨pm, mtime, ?_⟩
            have hthis := utimesSys_ok_at env _ p mtime f _ hfs2 hut
            simp [writeFile, hopen, valueBlob, hcond, htake, hm, hmt, hut, hthis]
        · refine ⟨pm, mt, ?_⟩
          simp [writeFile, hopen, valueBlob, hcond, htake, hm, hmt, hfs2]
      · cases hch : chmodSys env (fsSetContent fs1 p B) p mode with
        | error e => simp [writeFile, hopen, valueBlob, hcond, htake, hm, hch] at h
        | ok f =>
          have hatf := chmodSys_ok_at env _ p mode f _ hfs2 hch
          by_cases hmt : 0 ≤ mtime
          · cases hut : utimesSys env f p mtime with
            | error e =>
              simp [writeFile, hopen, valueBlob, hcond, htake, hm, hch, hmt, hut] at h
            | ok g =>
              refine ⟨mode &&& 0o7777, mtime, ?_⟩
              have hthis := utimesSys_ok_at env f p mtime g _ hatf hut
              simp [writeFile, hopen, valueBlob, hcond, htake, hm, hch, hmt, hut, hthis]
          · refine ⟨mode &&& 0o7777, mt, ?_⟩
            simp [writeFile, hopen, valueBlob, hcond, htake, hm, hch, hmt, hatf]

/-- C1: a successful `writeFile` of blob `B` at path `P` followed by a
read of `P` (under a benign read environment: the file is readable, the
allocation succeeds, the read is not short, and `B` fits the engine
limit) returns a blob equal to `B`. -/
theorem write_then_read_roundtrip (env : Env) (fs : FS) (P : String) (B : List Nat)
    (mode : Nat) (mtime : Int)
    (hw : (writeFile env fs P (SqlValue.blob B) mode mtime).ret = 0)
    (hread : env.readable P = true)
    (halloc : env.allocOk = true)
    (hfull : env.shortRead = none)
    (hmx : (B.length : Int) ≤ env.mxBlob) :
    (readFileContents env (writeFile env fs P (SqlValue.blob B) mode mtime).fs P).res
      = SqlResult.blob B := by
  obtain ⟨pm, mt, hat⟩ := writeFile_ok_content env fs P B mode mtime hw
  have hopenR : fopenR env (writeFile env fs P (SqlValue.blob B) mode mtime).fs P
      = some B := by
    simp [fopenR, hat, hread]
  have hnotbig : ¬ ((B.length : Int) > env.mxBlob) := not_lt.mpr hmx
  have hfr : freadCount env B.length = B.length := by simp [freadCount, hfull]
  have ha' : ¬ (env.allocOk = false) := by simp [halloc]
  simp only [readFileContents, hopenR]
  rw [if_neg hnotbig, if_neg ha', if_pos (by rw [hfr])]
  simp [hfr]

/-- Witness for C1: writing the bytes 1, 2, 3 to `"f"` in the empty
filesystem and reading them back. -/
theorem write_then_read_roundtrip_witness :
    (readFileContents env0
        (writeFile env0 fs0 "f" (SqlValue.blob [1, 2, 3]) 0o666 (-1)).fs "f").res
      = SqlResult.blob [1, 2, 3] :=
  write_then_read_roundtrip env0 fs0 "f" [1, 2, 3] 0o666 (-1) (by decide) rfl rfl rfl
    (by decide)

theorem fsSetContent_at (fs : FS) (p : String) (c : List Nat) (e : Entry)
    (h : fs p = some e) : fsSetContent fs p c p = some ⟨EKind.file c, e.perm, e.mtime⟩ := by
  simp [fsSetContent, h, fsUpdate]

theorem utimesSys_error_present (env : Env) (fs : FS) (p : String) (t : Int) (e : Entry)
    (er : Errno) (hfs : fs p = some e) (h : utimesSys env fs p t = Except.error er) :
    er = Errno.EACCES := by
  simp only [utimesSys, hfs] at h
  by_cases hc : env.utimesOk = true
  · rw [if_pos hc] at h
    cases h
  · rw [if_neg hc] at h
    injection h with h'
    exact h'.symm

theorem writeFile_open_error (env : Env) (fs : FS) (p : String) (data : SqlValue)
    (mode : Nat) (mtime : Int) (e : Errno) (hopen : fopenW fs p = Except.error e) :
    writeFile env fs p data mode mtime = ⟨1, fs, none, e⟩ := by
  simp [writeFile, hopen]

/-- Enumeration of the possible outcomes of one `writeFile` call: an open
failure returns 1 with the open `errno` and no result; a write or chmod
failure returns 2 with no result; success returns 0 storing the byte
count; a set-time failure returns 1 with the byte count already stored and
`errno` from `utimes` (never `ENOENT`, since the file just written
exists). -/
theorem writeFile_cases (env : Env) (fs : FS) (p : String) (data : SqlValue)
    (mode : Nat) (mtime : Int) :
    (∃ e, fopenW fs p = Except.error e ∧
       writeFile env fs p data mode mtime = ⟨1, fs, none, e⟩) ∨
    ((writeFile env fs p data mode mtime).ret = 2 ∧
       (writeFile env fs p data mode mtime).resSet = none ∧
       (writeFile env fs p data mode mtime).errno = Errno.ENONE) ∨
    ((writeFile env fs p data mode mtime).ret = 0 ∧
       (writeFile env fs p data mode mtime).resSet = some (blobLen data) ∧
       (writeFile env fs p data mode mtime).errno = Errno.ENONE) ∨
    ((writeFile env fs p data mode mtime).ret = 1 ∧
       (writeFile env fs p data mode mtime).resSet = some (blobLen data) ∧
       (writeFile env fs p data mode mtime).errno = Errno.EACCES ∧ 0 ≤ mtime) := by
  cases hopen : fopenW fs p with
  | error e => exact Or.inl ⟨e, rfl, writeFile_open_error env fs p data mode mtime e hopen⟩
  | ok fs1 =>
    obtain ⟨pm, mt, hfs1⟩ := fopenW_ok_entry fs p fs1 hopen
    cases hv : valueBlob data with
    | none =>
      by_cases hm : mode = 0
      · by_cases hmt : 0 ≤ mtime
        · cases hut : utimesSys env fs1 p mtime with
          | ok f =>
            refine Or.inr (Or.inr (Or.inl ?_))
            simp [writeFile, hopen, hv, hm, hmt, hut, blobLen]
          | error e =>
            have he := utimesSys_error_present env fs1 p mtime _ e hfs1 hut
            refine Or.inr (Or.inr (Or.inr ?_))
            simp [writeFile, hopen, hv, hm, hmt, hut, he, blobLen]
        · refine Or.inr (Or.inr (Or.inl ?_))
          simp [writeFile, hopen, hv, hm, hmt, blobLen]
      · cases hch : chmodSys env fs1 p mode with
        | error e =>
          refine Or.inr (Or.inl ?_)
          simp [writeFile, hopen, hv, hm, hch]
        | ok f =>
          have hatf := chmodSys_ok_at env fs1 p mode f _ hfs1 hch
          by_cases hmt : 0 ≤ mtime
          · cases hut : utimesSys env f p mtime with
            | ok g =>
              refine Or.inr (Or.inr (Or.inl ?_))
              simp [writeFile, hopen, hv, hm, hch, hmt, hut, blobLen]
            | error e =>
              have he := utimesSys_error_present env f p mtime _ e hatf hut
              refine Or.inr (Or.inr (Or.inr ?_))
              simp [writeFile, hopen, hv, hm, hch, hmt, hut, he, blobLen]
          · refine Or.inr (Or.inr (Or.inl ?_))
            simp [writeFile, hopen, hv, hm, hch, hmt, blobLen]
    | some z =>
      by_cases hn : z.length = fwriteCount env z.length
      case neg =>
        have hncond : (z.length = fwriteCount env z.length) = False := eq_false hn
        refine Or.inr (Or.inl ?_)
        simp [writeFile, hopen, hv, hncond]
      case pos =>
        have hcond : (z.length = fwriteCount env z.length) = True := eq_true hn
        have hfs2 := fsSetContent_at fs1 p (z.take (fwriteCount env z.length)) _ hfs1
        by_cases hm : mode = 0
        · by_cases hmt : 0 ≤ mtime
          · cases hut : utimesSys env (fsSetContent fs1 p (z.take (fwriteCount env z.length)))
                p mtime with
            | ok f =>
              refine Or.inr (Or.inr (Or.inl ?_))
              simp [writeFile, hopen, hv, hcond, hm, hmt, hut, blobLen]
            | error e =>
              have he := utimesSys_error_present env _ p mtime _ e hfs2 hut
              refine Or.inr (Or.inr (Or.inr ?_))
              simp [writeFile, hopen, hv, hcond, hm, hmt, hut, he, blobLen]
          · refine Or.inr (Or.inr (Or.inl ?_))
            simp [writeFile, hopen, hv, hcond, hm, hmt, blobLen]
        · cases hch : chmodSys env (fsSetContent fs1 p (z.take (fwriteCount env z.length)))
              p mode with
          | error e =>
            refine Or.inr (Or.inl ?_)
            simp [writeFile, hopen, hv, hcond, hm, hch]
          | ok f =>
            have hatf := chmodSys_ok_at env _ p mode f _ hfs2 hch
            by_cases hmt : 0 ≤ mtime
            · cases hut : utimesSys env f p mtime with
              | ok g =>
                refine Or.inr (Or.inr (Or.inl ?_))
                simp [writeFile, hopen, hv, hcond, hm, hch, hmt, hut, blobLen]
              | error e =>
                have he := utimesSys_error_present env f p mtime _ e hatf hut
                refine Or.inr (Or.inr (Or.inr ?_))
                simp [writeFile, hopen, hv, hcond, hm, hch, hmt, hut, he, blobLen]
            · refine Or.inr (Or.inr (Or.inl ?_))
              simp [writeFile, hopen, hv, hcond, hm, hch, hmt, blobLen]

theorem writeFile_enoent_iff (env : Env) (fs : FS) (p : String) (data : SqlValue)
    (mode : Nat) (mtime : Int) :
    ((writeFile env fs p data mode mtime).ret = 1 ∧
      (writeFile env fs p data mode mtime).errno = Errno.ENOENT)
      ↔ fopenW fs p = Except.error Errno.ENOENT := by
  constructor
  · rintro ⟨h1, h2⟩
    rcases writeFile_cases env fs p data mode mtime with
      ⟨e, he, hw⟩ | ⟨_, _, h3⟩ | ⟨h3, _, _⟩ | ⟨_, _, h3, _⟩
    · have h2' : e = Errno.ENOENT := by
        rw [hw] at h2
        exact h2
      rw [← h2']
      exact he
    · exact absurd h2 (by rw [h3]; decide)
    · rw [h3] at h1
      cases h1
    · exact absurd h2 (by rw [h3]; decide)
  · intro he
    rw [writeFile_open_error env fs p data mode mtime Errno.ENOENT he]
    exact ⟨rfl, rfl⟩

theorem writeFile_ok_resSet (env : Env) (fs : FS) (p : String) (data : SqlValue)
    (mode : Nat) (mtime : Int) (h : (writeFile env fs p data mode mtime).ret = 0) :
    (writeFile env fs p data mode mtime).resSet = some (blobLen data) := by
  rcases writeFile_cases env fs p data mode mtime with
    ⟨e, _, hw⟩ | ⟨h1, _, _⟩ | ⟨_, h2, _⟩ | ⟨h1, _, _⟩
  · rw [hw] at h
    cases h
  · rw [h1] at h
    cases h
  · exact h2
  · rw [h1] at h
    cases h

theorem writeFile_fail_resSet_none (env : Env) (fs : FS) (p : String) (data : SqlValue)
    (mode : Nat) (h : (writeFile env fs p data mode (-1)).ret ≠ 0) :
    (writeFile env fs p data mode (-1)).resSet = none := by
  rcases writeFile_cases env fs p data mode (-1) with
    ⟨e, _, hw⟩ | ⟨_, h2, _⟩ | ⟨h1, _, _⟩ | ⟨_, _, _, hmt⟩
  · rw [hw]
  · exact h2
  · exact absurd h1 h
  · exact absurd hmt (by decide)

theorem writefileCore_eq_pos (env : Env) (fs : FS) (p : String) (data : SqlValue)
    (mode : Nat) (mtime : Int)
    (hcnd : (writeFile env fs p data mode mtime).ret = 1 ∧
            (writeFile env fs p data mode mtime).errno = Errno.ENOENT)
    (hmp : (makeParentDirectory env (writeFile env fs p data mode mtime).fs p).1
            = SQLITE_OK) :
    writefileCore env fs p data mode mtime =
      ⟨writeFile env (makeParentDirectory env (writeFile env fs p data mode mtime).fs p).2
          p data mode mtime, 2, 1⟩ := by
  simp only [writefileCore]
  rw [if_pos hcnd, if_pos hmp]

theorem writefileCore_eq_mid (env : Env) (fs : FS) (p : String) (data : SqlValue)
    (mode : Nat) (mtime : Int)
    (hcnd : (writeFile env fs p data mode mtime).ret = 1 ∧
            (writeFile env fs p data mode mtime).errno = Errno.ENOENT)
    (hmp : ¬ (makeParentDirectory env (writeFile env fs p data mode mtime).fs p).1
            = SQLITE_OK) :
    writefileCore env fs p data mode mtime =
      ⟨⟨(writeFile env fs p data mode mtime).ret,
        (makeParentDirectory env (writeFile env fs p data mode mtime).fs p).2,
        (writeFile env fs p data mode mtime).resSet,
        (writeFile env fs p data mode mtime).errno⟩, 1, 1⟩ := by
  simp only [writefileCore]
  rw [if_pos hcnd, if_neg hmp]

theorem writefileCore_eq_neg (env : Env) (fs : FS) (p : String) (data : SqlValue)
    (mode : Nat) (mtime : Int)
    (hcnd : ¬ ((writeFile env fs p data mode mtime).ret = 1 ∧
            (writeFile env fs p data mode mtime).errno = Errno.ENOENT)) :
    writefileCore env fs p data mode mtime =
      ⟨writeFile env fs p data mode mtime, 1, 0⟩ := by
  simp only [writefileCore]
  rw [if_neg hcnd]

theorem writefileCore_ok_resSet (env : Env) (fs : FS) (p : String) (data : SqlValue)
    (mode : Nat) (mtime : Int)
    (h : (writefileCore env fs p data mode mtime).w.ret = 0) :
    (writefileCore env fs p data mode mtime).w.resSet = some (blobLen data) := by
  by_cases hcnd : (writeFile env fs p data mode mtime).ret = 1 ∧
      (writeFile env fs p data mode mtime).errno = Errno.ENOENT
  · by_cases hmp : (makeParentDirectory env (writeFile env fs p data mode mtime).fs p).1
        = SQLITE_OK
    · rw [writefileCore_eq_pos env fs p data mode mtime hcnd hmp] at h ⊢
      exact writeFile_ok_resSet env _ p data mode mtime h
    · rw [writefileCore_eq_mid env fs p data mode mtime hcnd hmp] at h
      rw [hcnd.1] at h
      cases h
  · rw [writefileCore_eq_neg env fs p data mode mtime hcnd] at h ⊢
    exact writeFile_ok_resSet env fs p data mode mtime h

theorem writefileCore_fail_resSet_none (env : Env) (fs : FS) (p : String) (data : SqlValue)
    (mode : Nat) (h : (writefileCore env fs p data mode (-1)).w.ret ≠ 0) :
    (writefileCore env fs p data mode (-1)).w.resSet = none := by
  by_cases hcnd : (writeFile env fs p data mode (-1)).ret = 1 ∧
      (writeFile env fs p data mode (-1)).errno = Errno.ENOENT
  · by_cases hmp : (makeParentDirectory env (writeFile env fs p data mode (-1)).fs p).1
        = SQLITE_OK
    · rw [writefileCore_eq_pos env fs p data mode (-1) hcnd hmp] at h ⊢
      exact writeFile_fail_resSet_none env _ p data mode h
    · rw [writefileCore_eq_mid env fs p data mode (-1) hcnd hmp]
      exact writeFile_fail_resSet_none env fs p data mode (fun hc => by
        rw [hcnd.1] at hc
        cases hc)
  · rw [writefileCore_eq_neg env fs p data mode (-1) hcnd] at h ⊢
    exact writeFile_fail_resSet_none env fs p data mode h

/-- C3: the first write attempt reports 1 with `errno == ENOENT` exactly
when the open-for-write step failed with the no-such-directory condition;
the Directory Builder is invoked exactly once in exactly that case; the
write is retried (two attempts) exactly when additionally the builder
succeeded; and there are never more than two attempts. -/
theorem writefile_retry_exactly_once (env : Env) (fs : FS) (zFile : String)
    (data : SqlValue) (perm : Nat) (mtime : Int) :
    (((writeFile env fs zFile data perm mtime).ret = 1 ∧
        (writeFile env fs zFile data perm mtime).errno = Errno.ENOENT)
      ↔ fopenW fs zFile = Except.error Errno.ENOENT) ∧
    (writefileCore env fs zFile data perm mtime).mkp
      = (if (writeFile env fs zFile data perm mtime).ret = 1 ∧
            (writeFile env fs zFile data perm mtime).errno = Errno.ENOENT
         then 1 else 0) ∧
    (writefileCore env fs zFile data perm mtime).attempts
      = (if (writeFile env fs zFile data perm mtime).ret = 1 ∧
            (writeFile env fs zFile data perm mtime).errno = Errno.ENOENT ∧
            (makeParentDirectory env (writeFile env fs zFile data perm mtime).fs zFile).1
              = SQLITE_OK
         then 2 else 1) ∧
    (writefileCore env fs zFile data perm mtime).attempts ≤ 2 := by
  refine ⟨writeFile_enoent_iff env fs zFile data perm mtime, ?_, ?_, ?_⟩
  · by_cases hcnd : (writeFile env fs zFile data perm mtime).ret = 1 ∧
        (writeFile env fs zFile data perm mtime).errno = Errno.ENOENT
    · by_cases hmp : (makeParentDirectory env
          (writeFile env fs zFile data perm mtime).fs zFile).1 = SQLITE_OK
      · rw [writefileCore_eq_pos env fs zFile data perm mtime hcnd hmp, if_pos hcnd]
      · rw [writefileCore_eq_mid env fs zFile data perm mtime hcnd hmp, if_pos hcnd]
    · rw [writefileCore_eq_neg env fs zFile data perm mtime hcnd, if_neg hcnd]
  · by_cases hcnd : (writeFile env fs zFile data perm mtime).ret = 1 ∧
        (writeFile env fs zFile data perm mtime).errno = Errno.ENOENT
    · by_cases hmp : (makeParentDirectory env
          (writeFile env fs zFile data perm mtime).fs zFile).1 = SQLITE_OK
      · rw [writefileCore_eq_pos env fs zFile data perm mtime hcnd hmp,
          if_pos ⟨hcnd.1, hcnd.2, hmp⟩]
      · rw [writefileCore_eq_mid env fs zFile data perm mtime hcnd hmp,
          if_neg (fun hc => hmp hc.2.2)]
    · rw [writefileCore_eq_neg env fs zFile data perm mtime hcnd,
        if_neg (fun hc => hcnd ⟨hc.1, hc.2.1⟩)]
  · by_cases hcnd : (writeFile env fs zFile data perm mtime).ret = 1 ∧
        (writeFile env fs zFile data perm mtime).errno = Errno.ENOENT
    · by_cases hmp : (makeParentDirectory env
          (writeFile env fs zFile data perm mtime).fs zFile).1 = SQLITE_OK
      · rw [writefileCore_eq_pos env fs zFile data perm mtime hcnd hmp]
      · rw [writefileCore_eq_mid env fs zFile data perm mtime hcnd hmp]
        exact Nat.le_succ 1
    · rw [writefileCore_eq_neg env fs zFile data perm mtime hcnd]
      exact Nat.le_succ 1

/-- C9 counterexample: with exactly two arguments a failing write (here the
target path exists as a directory, so the open fails and no retry applies)
raises no error at all: the stored result is NULL. -/
theorem writefile_two_arg_failure_silent :
    (writeFile env0 fsD "d" (SqlValue.blob [1]) 0o666 (-1)).ret ≠ 0 ∧
    (sqlite3_writefile env0 fsD [SqlValue.text "d", SqlValue.blob [1]]).res
      = SqlResult.null := by
  refine ⟨by decide, by decide⟩

/-- C9 (amended): `writefile` raises the argument-count error on fewer than
2 or more than 4 arguments; when the (possibly retried) write fails it
raises an error whose message names the path exactly when at least 3
arguments were given, and is silent (NULL result) with exactly 2; on
success the result is the number of bytes written. -/
theorem writefile_error_reporting (env : Env) (fs : FS) (args : List SqlValue) :
    (args.length < 2 ∨ 4 < args.length →
      (sqlite3_writefile env fs args).res
        = SqlResult.errMsg "wrong number of arguments to function writefile()") ∧
    (∀ p, 2 ≤ args.length → args.length ≤ 4 →
      valueText (args.getD 0 SqlValue.null) = some p →
      ((writefileCore env fs p (args.getD 1 SqlValue.null) (permOfArgs args)
            (mtimeOfArgs args)).w.ret ≠ 0 →
        (3 ≤ args.length →
          (sqlite3_writefile env fs args).res
            = SqlResult.errMsg ("failed to write file: " ++ p)) ∧
        (args.length = 2 → (sqlite3_writefile env fs args).res = SqlResult.null)) ∧
      ((writefileCore env fs p (args.getD 1 SqlValue.null) (permOfArgs args)
            (mtimeOfArgs args)).w.ret = 0 →
        (sqlite3_writefile env fs args).res
          = SqlResult.int (blobLen (args.getD 1 SqlValue.null)))) := by
  constructor
  · intro hbad
    simp only [sqlite3_writefile, if_pos hbad]
  · intro p h2 h4 hp
    have hlen : ¬ (args.length < 2 ∨ 4 < args.length) := by omega
    constructor
    · intro hret
      constructor
      · intro h3
        simp only [sqlite3_writefile, if_neg hlen, hp]
        rw [if_pos ⟨by omega, hret⟩]
      · intro h2eq
        have hmt : mtimeOfArgs args = -1 := by
          simp [mtimeOfArgs, h2eq]
        simp only [sqlite3_writefile, if_neg hlen, hp]
        rw [if_neg (fun hc => (by omega : ¬ 2 < args.length) hc.1)]
        rw [hmt] at hret
        rw [hmt, writefileCore_fail_resSet_none env fs p (args.getD 1 SqlValue.null)
          (permOfArgs args) hret]
    · intro hret0
      simp only [sqlite3_writefile, if_neg hlen, hp]
      rw [if_neg (fun hc => hc.2 hret0)]
      rw [writefileCore_ok_resSet env fs p (args.getD 1 SqlValue.null)
        (permOfArgs args) (mtimeOfArgs args) hret0]

/-- Witness for C9 (amended): an argument-count error, a reported failure
with 3 arguments, a silent failure with 2 arguments, and a successful
2-byte write. -/
theorem writefile_error_reporting_witness :
    (sqlite3_writefile env0 fs0 [SqlValue.text "x"]).res
      = SqlResult.errMsg "wrong number of arguments to function writefile()" ∧
    (sqlite3_writefile env0 fsD
        [SqlValue.text "d", SqlValue.blob [1], SqlValue.int 438]).res
      = SqlResult.errMsg ("failed to write file: " ++ "d") ∧
    (sqlite3_writefile env0 fsD [SqlValue.text "d", SqlValue.blob [1]]).res
      = SqlResult.null ∧
    (sqlite3_writefile env0 fs0 [SqlValue.text "f", SqlValue.blob [1, 2]]).res
      = SqlResult.int (blobLen (SqlValue.blob [1, 2])) :=
  ⟨(writefile_error_reporting env0 fs0 [SqlValue.text "x"]).1 (by decide),
   (((writefile_error_reporting env0 fsD
        [SqlValue.text "d", SqlValue.blob [1], SqlValue.int 438]).2 "d"
        (by decide) (by decide) rfl).1 (by decide)).1 (by decide),
   (((writefile_error_reporting env0 fsD
        [SqlValue.text "d", SqlValue.blob [1]]).2 "d"
        (by decide) (by decide) rfl).1 (by decide)).2 rfl,
   ((writefile_error_reporting env0 fs0
        [SqlValue.text "f", SqlValue.blob [1, 2]]).2 "f"
        (by decide) (by decide) rfl).2 (by decide)⟩

theorem takeWhile_len_le (p : Char → Bool) (l : List Char) :
    (l.takeWhile p).length ≤ l.length := by
  induction l with
  | nil => simp
  | cons a t ih =>
    rw [List.takeWhile_cons]
    by_cases hp : p a = true
    · rw [if_pos hp]
      simpa using Nat.succ_le_succ ih
    · rw [if_neg hp]
      simp

theorem takeWhile_stop (p : Char → Bool) (l : List Char)
    (h : (l.takeWhile p).length < l.length) :
    ∃ c, l[(l.takeWhile p).length]? = some c ∧ p c = false := by
  induction l with
  | nil => simp at h
  | cons a t ih =>
    by_cases hp : p a = true
    · rw [List.takeWhile_cons_of_pos hp] at h ⊢
      simp only [List.length_cons] at h ⊢
      obtain ⟨c, hc, hcp⟩ := ih (Nat.lt_of_succ_lt_succ h)
      exact ⟨c, by simpa using hc, hcp⟩
    · rw [List.takeWhile_cons_of_neg hp]
      exact ⟨a, by simp, by simpa using hp⟩

theorem takeWhile_within (p : Char → Bool) (l : List Char) (k : Nat)
    (h : k < (l.takeWhile p).length) :
    ∃ c, l[k]? = some c ∧ p c = true := by
  induction l generalizing k with
  | nil => simp at h
  | cons a t ih =>
    by_cases hp : p a = true
    · rw [List.takeWhile_cons_of_pos hp] at h
      cases k with
      | zero => exact ⟨a, by simp, hp⟩
      | succ k =>
        simp only [List.length_cons] at h
        obtain ⟨c, hc, hcp⟩ := ih k (Nat.lt_of_succ_lt_succ h)
        exact ⟨c, by simpa using hc, hcp⟩
    · rw [List.takeWhile_cons_of_neg hp] at h
      simp at h

theorem nextSlash_ge (cs : List Char) (i : Nat) : i ≤ nextSlash cs i :=
  Nat.le_add_right i _

theorem nextSlash_le (cs : List Char) (i : Nat) (h : i ≤ cs.length) :
    nextSlash cs i ≤ cs.length := by
  unfold nextSlash
  have h1 := takeWhile_len_le (fun c => c ≠ '/') (cs.drop i)
  rw [List.length_drop] at h1
  omega

theorem nextSlash_slash (cs : List Char) (i : Nat) (h : nextSlash cs i < cs.length) :
    cs[nextSlash cs i]? = some '/' := by
  have hi : i ≤ cs.length := le_of_lt (Nat.lt_of_le_of_lt (nextSlash_ge cs i) h)
  have htw : ((cs.drop i).takeWhile (fun c => c ≠ '/')).length < (cs.drop i).length := by
    rw [List.length_drop]
    unfold nextSlash at h
    omega
  obtain ⟨c, hc, hcp⟩ := takeWhile_stop (fun c => c ≠ '/') (cs.drop i) htw
  rw [List.getElem?_drop] at hc
  have hc' : c = '/' := by simpa using hcp
  rw [← hc']
  exact hc

theorem nextSlash_first (cs : List Char) (i k : Nat) (h1 : i ≤ k)
    (h2 : k < nextSlash cs i) : ¬ (cs[k]? = some '/') := by
  unfold nextSlash at h2
  have hk : k - i < ((cs.drop i).takeWhile (fun c => c ≠ '/')).length := by omega
  obtain ⟨c, hc, hcp⟩ := takeWhile_within (fun c => c ≠ '/') (cs.drop i) (k - i) hk
  rw [List.getElem?_drop] at hc
  have hik : i + (k - i) = k := by omega
  rw [hik] at hc
  intro hcon
  rw [hcon] at hc
  injection hc with hc'
  rw [← hc'] at hcp
  simp at hcp

theorem mkdirSys_ok_shape (fs : FS) (p : String) (m : Nat) (fs1 : FS)
    (h : mkdirSys fs p m = Except.ok fs1) :
    fs p = none ∧ fs1 = fsUpdate fs p ⟨EKind.dir, m &&& 0o7777, 0⟩ := by
  cases hfp : fs p with
  | some e => simp [mkdirSys, hfp] at h
  | none =>
    cases hps : parentStatus fs p with
    | error er => simp [mkdirSys, hfp, hps] at h
    | ok u =>
      simp only [mkdirSys, hfp, hps] at h
      injection h with h'
      exact ⟨rfl, h'.symm⟩

theorem mkdirSys_preserves (fs : FS) (p : String) (m : Nat) (fs1 : FS)
    (h : mkdirSys fs p m = Except.ok fs1) (q : String) (e : Entry)
    (hq : fs q = some e) : fs1 q = some e := by
  obtain ⟨hfp, hshape⟩ := mkdirSys_ok_shape fs p m fs1 h
  have hne : q ≠ p := by
    intro hc
    rw [hc, hfp] at hq
    cases hq
  rw [hshape]
  simp [fsUpdate, hne, hq]

theorem mkParentGo_preserves (cs : List Char) (fuel : Nat) :
    ∀ fs i q e, fs q = some e → ((mkParentGo cs fuel fs i).2) q = some e := by
  induction fuel with
  | zero =>
    intro fs i q e h
    exact h
  | succ fuel ih =>
    intro fs i q e h
    simp only [mkParentGo]
    by_cases hj : nextSlash cs i < cs.length
    · rw [if_pos hj]
      cases hpre : fs (String.mk (cs.take (nextSlash cs i))) with
      | some e2 =>
        simp only [hpre]
        cases hk : e2.kind with
        | dir =>
          simp only [hk]
          exact ih fs (nextSlash cs i + 1) q e h
        | file c =>
          simp only [hk]
          exact h
        | link t =>
          simp only [hk]
          exact h
      | none =>
        simp only [hpre]
        cases hmk : mkdirSys fs (String.mk (cs.take (nextSlash cs i))) 0o777 with
        | ok fs1 =>
          simp only [hmk]
          exact ih fs1 (nextSlash cs i + 1) q e
            (mkdirSys_preserves fs _ 0o777 fs1 hmk q e h)
        | error er =>
          simp only [hmk]
          exact h
    · rw [if_neg hj]
      exact h

theorem mkParentGo_new (cs : List Char) (fuel : Nat) :
    ∀ fs i q, fs q = none → ∀ e, ((mkParentGo cs fuel fs i).2) q = some e →
      e.kind = EKind.dir ∧ ∃ j, i ≤ j ∧ j < cs.length ∧ cs[j]? = some '/' ∧
        q = String.mk (cs.take j) := by
  induction fuel with
  | zero =>
    intro fs i q hq e hres
    have h2 : fs q = some e := hres
    rw [hq] at h2
    cases h2
  | succ fuel ih =>
    intro fs i q hq e hres
    simp only [mkParentGo] at hres
    by_cases hj : nextSlash cs i < cs.length
    · rw [if_pos hj] at hres
      cases hpre : fs (String.mk (cs.take (nextSlash cs i))) with
      | some e2 =>
        simp only [hpre] at hres
        cases hk : e2.kind with
        | dir =>
          simp only [hk] at hres
          obtain ⟨hkind, j, hij, hjn, hsl, hq'⟩ := ih fs (nextSlash cs i + 1) q hq e hres
          have hge := nextSlash_ge cs i
          exact ⟨hkind, j, by omega, hjn, hsl, hq'⟩
        | file c =>
          simp only [hk] at hres
          rw [hq] at hres
          cases hres
        | link t =>
          simp only [hk] at hres
          rw [hq] at hres
          cases hres
      | none =>
        simp only [hpre] at hres
        cases hmk : mkdirSys fs (String.mk (cs.take (nextSlash cs i))) 0o777 with
        | error er =>
          simp only [hmk] at hres
          rw [hq] at hres
          cases hres
        | ok fs1 =>
          simp only [hmk] at hres
          obtain ⟨hfp, hshape⟩ := mkdirSys_ok_shape fs _ 0o777 fs1 hmk
          by_cases hqp : q = String.mk (cs.take (nextSlash cs i))
          · have hfs1q : fs1 q = some ⟨EKind.dir, 0o777 &&& 0o7777, 0⟩ := by
              rw [hshape]
              simp [fsUpdate, hqp]
            have hpres := mkParentGo_preserves cs fuel fs1 (nextSlash cs i + 1) q
              ⟨EKind.dir, 0o777 &&& 0o7777, 0⟩ hfs1q
            rw [hres] at hpres
            injection hpres with hpe
            subst hpe
            exact ⟨rfl, nextSlash cs i, nextSlash_ge cs i, hj, nextSlash_slash cs i hj, hqp⟩
          · have hfs1q : fs1 q = none := by
              rw [hshape]
              simp [fsUpdate, hqp, hq]
            obtain ⟨hkind, j, hij, hjn, hsl, hq'⟩ := ih fs1 (nextSlash cs i + 1) q hfs1q e hres
            have hge := nextSlash_ge cs i
            exact ⟨hkind, j, by omega, hjn, hsl, hq'⟩
    · rw [if_neg hj] at hres
      have h2 : fs q = some e := hres
      rw [hq] at h2
      cases h2

theorem mkParentGo_bad (cs : List Char) (j : Nat) (hjn : j < cs.length)
    (hsl : cs[j]? = some '/') (ebad : Entry) (hbadkind : ebad.kind ≠ EKind.dir) :
    ∀ fuel fs i, i ≤ j → cs.length + 1 ≤ fuel + i →
      fs (String.mk (cs.take j)) = some ebad →
      (mkParentGo cs fuel fs i).1 = SQLITE_ERROR := by
  intro fuel
  induction fuel with
  | zero =>
    intro fs i hij hfuel hbad
    omega
  | succ fuel ih =>
    intro fs i hij hfuel hbad
    have hj0le : nextSlash cs i ≤ j := by
      by_contra hcon
      push_neg at hcon
      exact (nextSlash_first cs i j hij hcon) hsl
    have hj0n : nextSlash cs i < cs.length := Nat.lt_of_le_of_lt hj0le hjn
    have hge := nextSlash_ge cs i
    simp only [mkParentGo]
    rw [if_pos hj0n]
    by_cases heq : nextSlash cs i = j
    · rw [heq, hbad]
      cases hk : ebad.kind with
      | dir => exact absurd hk hbadkind
      | file c => simp only [hk]
      | link t => simp only [hk]
    · have hlt : nextSlash cs i < j := by omega
      cases hpre : fs (String.mk (cs.take (nextSlash cs i))) with
      | some e2 =>
        simp only [hpre]
        cases hk : e2.kind with
        | dir =>
          simp only [hk]
          exact ih fs (nextSlash cs i + 1) (by omega) (by omega) hbad
        | file c => simp only [hk]
        | link t => simp only [hk]
      | none =>
        simp only [hpre]
        cases hmk : mkdirSys fs (String.mk (cs.take (nextSlash cs i))) 0o777 with
        | error er => simp only [hmk]
        | ok fs1 =>
          simp only [hmk]
          exact ih fs1 (nextSlash cs i + 1) (by omega) (by omega)
            (mkdirSys_preserves fs _ 0o777 fs1 hmk _ ebad hbad)

/-- C7: the Directory Builder never removes, renames or modifies any
existing entry; every entry it creates is a directory at a strict
`/`-terminated ancestor of the input path (the final component is never
created, and the entry at the full path itself is untouched); and it
fails with `SQLITE_ERROR` whenever some walked ancestor exists but is not
a directory (given that the initial path-copy allocation succeeds). -/
theorem makeParentDirectory_safe (env : Env) (fs : FS) (zFile : String) :
    (∀ q e, fs q = some e → (makeParentDirectory env fs zFile).2 q = some e) ∧
    (∀ q, fs q = none → ∀ e, (makeParentDirectory env fs zFile).2 q = some e →
      e.kind = EKind.dir ∧ ∃ j, 1 ≤ j ∧ j < zFile.data.length ∧
        zFile.data[j]? = some '/' ∧ q = String.mk (zFile.data.take j)) ∧
    ((makeParentDirectory env fs zFile).2 zFile = fs zFile) ∧
    (env.strdupOk = true →
      ∀ j e, 1 ≤ j → j < zFile.data.length → zFile.data[j]? = some '/' →
        fs (String.mk (zFile.data.take j)) = some e → e.kind ≠ EKind.dir →
        (makeParentDirectory env fs zFile).1 = SQLITE_ERROR) := by
  by_cases hs : env.strdupOk = true
  · have hmk : makeParentDirectory env fs zFile
        = mkParentGo zFile.data (zFile.data.length + 1) fs 1 := by
      simp [makeParentDirectory, hs]
    refine ⟨?_, ?_, ?_, ?_⟩
    · intro q e h
      rw [hmk]
      exact mkParentGo_preserves zFile.data _ fs 1 q e h
    · intro q hq e hres
      rw [hmk] at hres
      exact mkParentGo_new zFile.data _ fs 1 q hq e hres
    · cases hzf : fs zFile with
      | some e =>
        rw [hmk]
        exact mkParentGo_preserves zFile.data _ fs 1 zFile e hzf
      | none =>
        cases hres : (makeParentDirectory env fs zFile).2 zFile with
        | none => rfl
        | some e =>
          rw [hmk] at hres
          obtain ⟨_, j, _, hjn, _, hq'⟩ :=
            mkParentGo_new zFile.data _ fs 1 zFile hzf e hres
          have hdata : zFile.data = zFile.data.take j := congrArg String.data hq'
          have hlen := congrArg List.length hdata
          rw [List.length_take] at hlen
          have hmin : min j zFile.data.length = j := Nat.min_eq_left (le_of_lt hjn)
          exact ((by omega : False)).elim
    · intro _ j e hj1 hjn hsl hbad hkind
      rw [hmk]
      exact mkParentGo_bad zFile.data j hjn hsl e hkind (zFile.data.length + 1) fs 1 hj1
        (by omega) hbad
  · have hmk : makeParentDirectory env fs zFile = (SQLITE_NOMEM, fs) := by
      simp [makeParentDirectory, hs]
    refine ⟨?_, ?_, ?_, ?_⟩
    · intro q e h
      rw [hmk]
      exact h
    · intro q hq e hres
      rw [hmk] at hres
      have h2 : fs q = some e := hres
      rw [hq] at h2
      cases h2
    · rw [hmk]
    · intro hcon
      exact absurd hcon hs

/-- Witness for C7: on a path whose first ancestor exists as a regular
file the builder fails with `SQLITE_ERROR`, and an existing directory
entry is preserved untouched while building below it. -/
theorem makeParentDirectory_safe_witness :
    (makeParentDirectory env0 fsF "f/x/y").1 = SQLITE_ERROR ∧
    (makeParentDirectory env0 fsD "d/x/y").2 "d" = some ⟨EKind.dir, 0o777, 0⟩ :=
  ⟨(makeParentDirectory_safe env0 fsF "f/x/y").2.2.2 rfl 1 ⟨EKind.file [1, 2], 0o644, 0⟩
      (by decide) (by decide) (by decide) (by decide) (by decide),
   (makeParentDirectory_safe env0 fsD "d/x/y").1 "d" ⟨EKind.dir, 0o777, 0⟩ (by decide)⟩

end Fileio
